import Mathlib

/-!
Verification of the protocol layer and typing engine of the VS Code MCP
WebSocket extension.  The definitions below are a shallow embedding of the
extension's server code: the message router's id extraction, the response
codec (`sendResponse` / `sendError`), the connection authentication gate
(`verifyClient`), the position/selection clamping, the `type` handler
(pre-positioning, replace pre-clear, append repositioning, pacing,
quick/animated paths, post-typing cursor), and the `getFileContent` path
branch.  JavaScript numbers used for millisecond amounts are modelled as
rationals; strings are Lean strings; JSON scalar ids are a small inductive
with JavaScript truthiness.
-/

namespace VsMcp

/-! ### Request ids and the response codec

The server reads `const id = msg.id || null;`, so a falsy id (absent,
`null`, `0`, `""`, `false`) is normalised to `null`.  `sendResponse`
returns without sending when `id == null`; `sendError` always sends. -/

/-- A JSON scalar sitting in the `id` field of a request, or `absent` when
the field is missing (JavaScript `undefined`). -/
inductive JsId where
  | absent
  | jnull
  | jbool (b : Bool)
  | jnum (n : Int)
  | jstr (s : String)
deriving DecidableEq, Repr

/-- JavaScript truthiness of an id value: `undefined`, `null`, `false`,
`0` and `""` are falsy. -/
def idTruthy : JsId → Bool
  | .absent => false
  | .jnull => false
  | .jbool b => b
  | .jnum n => n != 0
  | .jstr s => s != ""

/-- The router's id extraction `const id = msg.id || null;`: a falsy id
becomes `null`. -/
def extractId (raw : JsId) : JsId :=
  if idTruthy raw then raw else .jnull

/-- JavaScript loose equality `id == null`, true exactly for `null` and
`undefined`. -/
def idIsNullish : JsId → Bool
  | .absent => true
  | .jnull => true
  | _ => false

/-- An outbound wire message: either `{id, result}` or `{id, error}`.
The result payload type is left generic (handlers send strings or
objects). -/
inductive OutMsg (α : Type) where
  | response (id : JsId) (result : α)
  | err (id : JsId) (error : String)
deriving DecidableEq, Repr

/-- Embedding of `sendResponse`: `if (id == null) return;` then send
`{id, result}`.  Returns the message sent, if any. -/
def sendResponse {α : Type} (id : JsId) (result : α) : Option (OutMsg α) :=
  if idIsNullish id then none else some (.response id result)

/-- Embedding of `sendError`: builds `{id, error: errorMsg}` and sends it
unconditionally (there is no null-id guard in the source). -/
def sendError {α : Type} (id : JsId) (errorMsg : String) : Option (OutMsg α) :=
  some (.err id errorMsg)

/-! ### Authentication gate -/

/-- JavaScript `String.prototype.replace` with a string pattern removes
only the first occurrence of the pattern; this is that operation on
character lists, specialised to deletion. -/
def stripFirstAux (pat : List Char) : List Char → List Char
  | [] => []
  | c :: rest =>
    if pat.isPrefixOf (c :: rest) then (c :: rest).drop pat.length
    else c :: stripFirstAux pat rest

/-- Embedding of `authHeader.replace('Bearer ', '')`. -/
def stripBearer (s : String) : String :=
  String.mk (stripFirstAux "Bearer ".toList s.toList)

/-- The pieces of a connection attempt that `verifyClient` inspects: the
`token` query parameter of the request URL and the `authorization`
header. -/
structure ConnInfo where
  urlToken : Option String
  authHeader : Option String
deriving DecidableEq, Repr

/-- Outcome of `verifyClient`: `callback(true)` or
`callback(false, code, reason)`. -/
inductive VerifyResult where
  | accept
  | reject (code : Nat) (reason : String)
deriving DecidableEq, Repr

/-- JavaScript truthiness of an optional string (`null` and `""` are
falsy). -/
def strTruthy : Option String → Bool
  | none => false
  | some s => s != ""

/-- Embedding of the `verifyClient` handler installed when authentication
is enabled: with no configured token every connection is rejected 401;
otherwise the URL `token` parameter and the Bearer-stripped
`authorization` header are each compared against the token, and the
connection is accepted iff one of them is truthy and equal to it. -/
def verifyClient (authToken : Option String) (info : ConnInfo) : VerifyResult :=
  match authToken with
  | none => .reject 401 "Authentication token not configured on server"
  | some tok =>
    let clientToken : Option String := info.urlToken
    let headerToken : Option String :=
      match info.authHeader with
      | some h => if h != "" then some (stripBearer h) else none
      | none => none
    let tokenMatches :=
      (strTruthy clientToken && (clientToken == some tok)) ||
      (strTruthy headerToken && (headerToken == some tok))
    if tokenMatches then .accept
    else .reject 401 "Invalid authentication token"

/-! ### Documents, positions and clamping -/

/-- A zero-based editor position (`vscode.Position`; its constructor
requires non-negative coordinates, hence `Nat`). -/
structure Position where
  line : Nat
  character : Nat
deriving DecidableEq, Repr

/-- A text document as its list of lines (`lineCount = lines.length`; a
real VS Code document always has at least one line). -/
structure Document where
  lines : List String
deriving DecidableEq, Repr

/-- The document's `lineCount`. -/
def Document.lineCount (d : Document) : Nat :=
  d.lines.length

/-- The text of line `n` (`document.lineAt(n).text`); total, returning
`""` out of range, since the handler only calls it on clamped lines. -/
def Document.lineText (d : Document) (n : Nat) : String :=
  d.lines.getD n ""

/-- Embedding of the `type` handler's position validation: the line is
clamped with `Math.min(line, lineCount - 1)` and the character with
`Math.min(character, lineAt(docLine).text.length)`.  The same two lines
of code are repeated verbatim for `position`, `selection.start` and
`selection.end`. -/
def clampPosition (d : Document) (p : Position) : Position :=
  let docLine := min p.line (d.lineCount - 1)
  let lineLength := (d.lineText docLine).length
  let docChar := min p.character lineLength
  ⟨docLine, docChar⟩

/-! ### Editor state and edit operations

The `type` handler works against `vscode.window.activeTextEditor`: a
document plus a selection (anchor and active end).  Single-character
insertion goes through the `default:type` command, which replaces the
current selection with the character and leaves the caret after it;
quick mode uses `editBuilder.insert(selection.active, text)`. -/

/-- The active editor: its document and its selection (a
`vscode.Selection` is an anchor/active pair). -/
structure Editor where
  doc : Document
  selAnchor : Position
  selActive : Position
deriving DecidableEq, Repr

/-- Position order used to normalise a selection into a range. -/
def posLe (a b : Position) : Bool :=
  a.line < b.line || (a.line == b.line && a.character ≤ b.character)

/-- `Selection.isEmpty`: anchor and active end coincide. -/
def selectionEmpty (ed : Editor) : Bool :=
  ed.selAnchor == ed.selActive

/-- Deleting the range from `s` to `e` (assumed ordered): the prefix of
`s`'s line is joined with the suffix of `e`'s line. -/
def deleteRange (d : Document) (s e : Position) : Document :=
  let joined := String.mk ((d.lineText s.line).toList.take s.character ++
    (d.lineText e.line).toList.drop e.character)
  ⟨d.lines.take s.line ++ [joined] ++ d.lines.drop (e.line + 1)⟩

/-- Splitting a character list at newline characters; always returns at
least one (possibly empty) segment, like splitting a string on a line
break does. -/
def splitOnNewline : List Char → List (List Char)
  | [] => [[]]
  | c :: rest =>
    let r := splitOnNewline rest
    if c = '\x0a' then [] :: r
    else (c :: r.headD []) :: r.tail

/-- Inserting `text` at position `p`: the insertion point's line is split
there and the (possibly multi-line) text is spliced in. -/
def insertTextAt (d : Document) (p : Position) (text : String) : Document :=
  let before := (d.lineText p.line).toList.take p.character
  let after := (d.lineText p.line).toList.drop p.character
  let pieces := (splitOnNewline (before ++ text.toList ++ after)).map String.mk
  ⟨d.lines.take p.line ++ pieces ++ d.lines.drop (p.line + 1)⟩

/-- The caret position after inserting `text` at `p` (the editor places
the cursor at the end of an insertion). -/
def endOfInsert (p : Position) (text : String) : Position :=
  let segs := splitOnNewline text.toList
  if segs.length ≤ 1 then ⟨p.line, p.character + text.length⟩
  else ⟨p.line + (segs.length - 1), (segs.getLastD []).length⟩

/-- Deleting the current selection (`editBuilder.delete(editor.selection)`):
the normalised range is removed and the caret collapses to its start. -/
def deleteSelection (ed : Editor) : Editor :=
  let s := if posLe ed.selAnchor ed.selActive then ed.selAnchor else ed.selActive
  let e := if posLe ed.selAnchor ed.selActive then ed.selActive else ed.selAnchor
  ⟨deleteRange ed.doc s e, s, s⟩

/-- The `default:type` command with a one-character payload: the current
selection is replaced by the character and the caret lands after it. -/
def typeChar (ed : Editor) (c : Char) : Editor :=
  let s := if posLe ed.selAnchor ed.selActive then ed.selAnchor else ed.selActive
  let e := if posLe ed.selAnchor ed.selActive then ed.selActive else ed.selAnchor
  let d1 := deleteRange ed.doc s e
  let d2 := insertTextAt d1 s (String.mk [c])
  let caret := endOfInsert s (String.mk [c])
  ⟨d2, caret, caret⟩

/-- Quick-mode insertion `editBuilder.insert(editor.selection.active,
text)`: the whole text goes in as one edit at the active position and the
caret lands after it. -/
def quickInsert (ed : Editor) (text : String) : Editor :=
  let d2 := insertTextAt ed.doc ed.selActive text
  let caret := endOfInsert ed.selActive text
  ⟨d2, caret, caret⟩

/-- Append-mode repositioning: the caret moves to the end of the last
line (`lineCount - 1`, that line's length). -/
def moveToEnd (ed : Editor) : Editor :=
  let lastLine := ed.doc.lineCount - 1
  let lastChar := (ed.doc.lineText lastLine).length
  ⟨ed.doc, ⟨lastLine, lastChar⟩, ⟨lastLine, lastChar⟩⟩

/-! ### The `type` handler -/

/-- The parameters of a `type` request after the handler's defaulting:
`mode` is `params.mode || 'insert'`, `variation` is
`params.variation || 0`, `quick` is `params.quick === true`, and the
position fields have had `|| 0` applied to their coordinates. -/
structure TypeParams where
  text : List Char
  position : Option Position
  selection : Option (Position × Position)
  mode : String
  speed : Option ℚ
  variation : ℚ
  duration : Option ℚ
  quick : Bool
  afterCursor : Option Position
deriving DecidableEq, Repr

/-- Pacing resolution: `speed = params.speed != null ? params.speed :
defaultSpeed`, then `if (params.duration != null) speed =
duration / Math.max(text.length, 1)`. -/
def effectiveSpeed (defaultSpeed : ℚ) (p : TypeParams) : ℚ :=
  let speed := match p.speed with
    | some s => s
    | none => defaultSpeed
  match p.duration with
  | some totalMs => totalMs / (max p.text.length 1 : ℚ)
  | none => speed

/-- Per-character delay: `variation ? speed * (1 + (Math.random()*2 - 1)
* variation) : speed`, with `r` the raw `Math.random()` draw in [0, 1). -/
def charDelay (speed variation r : ℚ) : ℚ :=
  if variation = 0 then speed else speed * (1 + (r * 2 - 1) * variation)

/-- Clamping of a number into [0, 1]. -/
def clamp01 (v : ℚ) : ℚ :=
  max 0 (min 1 v)

/-- Modelled from the spec: the animated wait of §4.4 step 6,
`effectiveDelay * (1 + jitterFraction * randomSignedUnit())` with the
jitter fraction clamped to [0, 1]; `rsu` is the signed unit draw in
[-1, 1].  Stated for comparison with `charDelay`, which is what the code
computes. -/
def specCharDelay (speed jitter rsu : ℚ) : ℚ :=
  speed * (1 + clamp01 jitter * rsu)

/-- Pre-positioning: a `position` parameter places an empty-selection
caret at its clamped location, then a `selection` parameter overrides the
selection with its independently clamped endpoints. -/
def prePosition (ed : Editor) (p : TypeParams) : Editor :=
  let ed1 := match p.position with
    | some pos =>
      let v := clampPosition ed.doc pos
      { ed with selAnchor := v, selActive := v }
    | none => ed
  match p.selection with
  | some se =>
    let vs := clampPosition ed1.doc se.1
    let ve := clampPosition ed1.doc se.2
    { ed1 with selAnchor := vs, selActive := ve }
  | none => ed1

/-- Replace-mode pre-clear: `if (mode === 'replace' &&
!editor.selection.isEmpty)` the selection is deleted first. -/
def replacePreClear (ed : Editor) (p : TypeParams) : Editor :=
  if p.mode = "replace" && !selectionEmpty ed then deleteSelection ed else ed

/-- Append-mode repositioning guard (run separately on the quick and the
animated path). -/
def appendReposition (ed : Editor) (p : TypeParams) : Editor :=
  if p.mode = "append" then moveToEnd ed else ed

/-- Result of one pass of the animated loop: the editor after the
committed characters, the waits performed, how many characters were
inserted, and the thrown error message if an insertion failed. -/
structure LoopResult where
  editor : Editor
  delays : List ℚ
  committed : Nat
  failure : Option String
deriving DecidableEq, Repr

/-- The animated per-character loop: before each character it waits
`charDelay` of the next random draw, then inserts the character via
`default:type`.  `failAt = some k` makes the insertion of the k-th
remaining character throw `failMsg` (the document becoming invalid
mid-job); the delay before that character has already elapsed. -/
def typeLoop (speed variation : ℚ) (failMsg : String) :
    Option Nat → List ℚ → Editor → List Char → LoopResult
  | _, _, ed, [] => ⟨ed, [], 0, none⟩
  | failAt, rands, ed, c :: cs =>
    let d := charDelay speed variation (rands.headD 0)
    if failAt = some 0 then ⟨ed, [d], 0, some failMsg⟩
    else
      let rest := typeLoop speed variation failMsg (failAt.map (· - 1)) rands.tail (typeChar ed c) cs
      ⟨rest.editor, d :: rest.delays, rest.committed + 1, rest.failure⟩

/-- Post-typing cursor placement: `params.afterCursor`, when present, is
turned into a position with `|| 0` defaulting and set as an
empty selection as supplied — the source performs no clamping here. -/
def setAfterCursor (a : Option Position) (ed : Editor) : Editor :=
  match a with
  | some p => { ed with selAnchor := p, selActive := p }
  | none => ed

/-- Outcome envelope of the `type` handler, before the response codec. -/
inductive TypeResp where
  | ok (msg : String)
  | err (msg : String)
deriving DecidableEq, Repr

/-- Full outcome of a `type` request: final editor, waits performed,
characters actually inserted, and the response payload. -/
structure TypeResult where
  editor : Editor
  delays : List ℚ
  committed : Nat
  response : TypeResp
deriving DecidableEq, Repr

/-- Embedding of the `type` handler.  `rands` is the stream of
`Math.random()` draws consumed by the animated loop; `failAt`/`failMsg`
model an insertion failure as in `typeLoop`.  The guard
`if (!params.text)` fires on an absent and on an empty text alike; quick
mode inserts everything at once, reports
`Inserted N characters (quick mode)` and returns before the animated
loop and the after-cursor step; the animated path loops `typeLoop`, then
sets `afterCursor` (with no clamping) as an empty selection, and reports
`Typed N characters`; a loop failure is caught and reported as
`Typing failed: ...` without an after-cursor step. -/
def typeHandler (defaultSpeed : ℚ) (p : TypeParams) (ed0 : Editor)
    (rands : List ℚ) (failAt : Option Nat) (failMsg : String) : TypeResult :=
  if p.text = [] then
    ⟨ed0, [], 0, .err "Missing \"text\" to type"⟩
  else
    let ed2 := prePosition ed0 p
    let ed3 := replacePreClear ed2 p
    let speed := effectiveSpeed defaultSpeed p
    if p.quick then
      let ed4 := appendReposition ed3 p
      let ed5 := quickInsert ed4 (String.mk p.text)
      ⟨ed5, [], p.text.length,
        .ok ("Inserted " ++ toString p.text.length ++ " characters (quick mode)")⟩
    else
      let ed4 := appendReposition ed3 p
      let res := typeLoop speed p.variation failMsg failAt rands ed4 p.text
      match res.failure with
      | some m => ⟨res.editor, res.delays, res.committed, .err ("Typing failed: " ++ m)⟩
      | none =>
        ⟨setAfterCursor p.afterCursor res.editor, res.delays, res.committed,
          .ok ("Typed " ++ toString p.text.length ++ " characters")⟩

/-! ### `getFileContent` with an explicit path

The path branch reads the file's bytes with `workspace.fs.readFile` and
decodes them with `Buffer.from(bytes).toString('utf-8')`; it never
touches the active editor. -/

/-- The Unicode replacement character emitted for invalid byte
sequences. -/
def replacementChar : Char :=
  Char.ofNat 0xFFFD

/-- Whether a byte is a UTF-8 continuation byte (10xxxxxx). -/
def isCont (b : Nat) : Bool :=
  0x80 ≤ b && b < 0xC0

/-- Decoding of one UTF-8 code point: given a lead byte and the bytes
after it, produce the decoded character (the replacement character for a
malformed sequence) and how many continuation bytes were consumed. -/
def utf8DecodeStep (b1 : Nat) (rest : List Nat) : Char × Nat :=
  if b1 < 0x80 then (Char.ofNat b1, 0)
  else if b1 < 0xC2 then (replacementChar, 0)
  else if b1 < 0xE0 then
    match rest with
    | b2 :: _ =>
      if isCont b2 then (Char.ofNat ((b1 - 0xC0) * 0x40 + (b2 - 0x80)), 1)
      else (replacementChar, 0)
    | [] => (replacementChar, 0)
  else if b1 < 0xF0 then
    match rest with
    | b2 :: b3 :: _ =>
      if isCont b2 && isCont b3 then
        let cp := (b1 - 0xE0) * 0x1000 + (b2 - 0x80) * 0x40 + (b3 - 0x80)
        ((if 0x800 ≤ cp && (cp < 0xD800 || 0xE000 ≤ cp) then Char.ofNat cp
          else replacementChar), 2)
      else (replacementChar, 0)
    | _ => (replacementChar, 0)
  else if b1 < 0xF5 then
    match rest with
    | b2 :: b3 :: b4 :: _ =>
      if isCont b2 && isCont b3 && isCont b4 then
        let cp := (b1 - 0xF0) * 0x40000 + (b2 - 0x80) * 0x1000 +
          (b3 - 0x80) * 0x40 + (b4 - 0x80)
        ((if 0x10000 ≤ cp && cp ≤ 0x10FFFF then Char.ofNat cp
          else replacementChar), 3)
      else (replacementChar, 0)
    | _ => (replacementChar, 0)
  else (replacementChar, 0)

/-- UTF-8 decoding of a byte list, as performed by
`Buffer.toString('utf-8')`: well-formed sequences decode to their code
point, malformed ones to the replacement character. -/
def utf8Decode : List Nat → List Char
  | [] => []
  | b1 :: rest =>
    let step := utf8DecodeStep b1 rest
    step.1 :: utf8Decode (rest.drop step.2)
termination_by l => l.length
decreasing_by simp only [List.length_cons, List.length_drop]; omega

/-- The server-visible world of the `getFileContent` handler: the
filesystem (bytes by path) and the active editor, if any. -/
structure ServerState where
  fs : String → Option (List Nat)
  editor : Option Editor

/-- Response payload of `getFileContent`: the `{path, content}` object on
success, an error string on failure. -/
inductive GetContentResp where
  | ok (path content : String)
  | err (msg : String)
deriving DecidableEq, Repr

/-- Embedding of the `getFileContent` handler's path branch: read the
bytes at `path`, decode them as UTF-8 and answer `{path, content}`; a
read failure answers the could-not-read error.  The state is returned so
the theorem can speak about what the handler left untouched. -/
def getFileContentPath (st : ServerState) (path : String) :
    GetContentResp × ServerState :=
  match st.fs path with
  | some bytes => (.ok path (String.mk (utf8Decode bytes)), st)
  | none => (.err ("Could not read file (not found or inaccessible): " ++ path), st)

/-! ## Theorems -/

/-- C9: a request whose id field is a falsy JSON scalar (the number `0`,
the empty string or `false`) has its id normalised to `null` by the
router's `msg.id || null`, so its successful completion produces no
response message at all. -/
theorem falsy_id_is_notification {α : Type} (raw : JsId) (r : α)
    (h : raw = .jnum 0 ∨ raw = .jstr "" ∨ raw = .jbool false) :
    extractId raw = .jnull ∧ sendResponse (extractId raw) r = none := by
  rcases h with h | h | h <;> subst h <;> exact ⟨rfl, rfl⟩

/-- Witness for `falsy_id_is_notification` at id `0`. -/
theorem falsy_id_is_notification_witness :
    extractId (.jnum 0) = .jnull ∧ sendResponse (extractId (.jnum 0)) (7 : Nat) = none :=
  falsy_id_is_notification (.jnum 0) (7 : Nat) (Or.inl rfl)

/-- C1 counterexample: a request with no id that fails (here: the
router's missing-action validation) still produces an outbound message,
because `sendError` has no null-id guard — refuting the claim that the
error path suppresses the response for id-less requests. -/
theorem error_for_idless_request_still_sent :
    (sendError (extractId .absent)
        "Missing required \"action\" or \"method\" field" : Option (OutMsg String)) =
      some (.err .jnull "Missing required \"action\" or \"method\" field") := rfl

/-- C1 amended: for a nullish id the success path sends nothing, but the
error path always sends `{id: null, error}`. -/
theorem nullish_id_suppresses_success_not_error {α : Type} (id : JsId)
    (h : idIsNullish id = true) (r : α) (e : String) :
    sendResponse id r = none ∧
    (sendError id e : Option (OutMsg α)) = some (.err id e) := by
  exact ⟨by simp [sendResponse, h], rfl⟩

/-- Witness for `nullish_id_suppresses_success_not_error` at id `null`. -/
theorem nullish_id_suppresses_success_not_error_witness :
    sendResponse .jnull (5 : Nat) = none ∧
    (sendError .jnull "boom" : Option (OutMsg Nat)) = some (.err .jnull "boom") :=
  nullish_id_suppresses_success_not_error .jnull rfl (5 : Nat) "boom"

/-- C7: with a total duration override the effective per-character delay
is `duration / max(1, text.length)`; without one it is the
request-supplied speed, or the configured default speed if the request
supplies none. -/
theorem effectiveSpeed_resolution (defaultSpeed : ℚ) (p : TypeParams) :
    (∀ d : ℚ, p.duration = some d →
      effectiveSpeed defaultSpeed p = d / (max 1 p.text.length : ℚ)) ∧
    (∀ s : ℚ, p.duration = none → p.speed = some s →
      effectiveSpeed defaultSpeed p = s) ∧
    (p.duration = none → p.speed = none →
      effectiveSpeed defaultSpeed p = defaultSpeed) := by
  refine ⟨fun d hd => ?_, fun s hd hs => ?_, fun hd hs => ?_⟩
  · simp [effectiveSpeed, hd, max_comm]
  · simp [effectiveSpeed, hd, hs]
  · simp [effectiveSpeed, hd, hs]

/-- Witness for `effectiveSpeed_resolution`: a duration of 100 ms over a
two-character text gives 50 ms per character. -/
theorem effectiveSpeed_resolution_witness :
    effectiveSpeed 50 ⟨['a', 'b'], none, none, "insert", none, 0, some 100, false, none⟩ =
      100 / (max 1 (['a', 'b'] : List Char).length : ℚ) :=
  (effectiveSpeed_resolution 50
    ⟨['a', 'b'], none, none, "insert", none, 0, some 100, false, none⟩).1 100 rfl

/-- C4: pre-positioning clamping.  On a document with at least one line
(as every real document has), a line at or past `lineCount` is clamped
to `lineCount - 1` and a character past the clamped line's length is
clamped to that length; the clamped position is always in range, so
clamping never rejects or throws; and the pre-positioning step applies
exactly this clamping to a supplied position and to both endpoints of a
supplied selection. -/
theorem clampPosition_spec (d : Document) (p : Position) (hne : d.lines ≠ []) :
    (d.lineCount ≤ p.line → (clampPosition d p).line = d.lineCount - 1) ∧
    (clampPosition d p).line < d.lineCount ∧
    ((d.lineText (clampPosition d p).line).length < p.character →
      (clampPosition d p).character = (d.lineText (clampPosition d p).line).length) ∧
    (clampPosition d p).character ≤ (d.lineText (clampPosition d p).line).length ∧
    (∀ (ed : Editor) (tp : TypeParams) (s e : Position), ed.doc = d →
      tp.position = none → tp.selection = some (s, e) →
      (prePosition ed tp).selAnchor = clampPosition d s ∧
      (prePosition ed tp).selActive = clampPosition d e) ∧
    (∀ (ed : Editor) (tp : TypeParams), ed.doc = d →
      tp.position = some p → tp.selection = none →
      (prePosition ed tp).selAnchor = clampPosition d p ∧
      (prePosition ed tp).selActive = clampPosition d p) := by
  have hL : 1 ≤ d.lineCount := List.length_pos.mpr hne
  refine ⟨fun hline => ?_, ?_, fun hchar => ?_, ?_, ?_, ?_⟩
  · simp only [clampPosition]
    omega
  · simp only [clampPosition]
    omega
  · simp only [clampPosition] at hchar ⊢
    omega
  · simp only [clampPosition]
    omega
  · intro ed tp s e hdoc hpos hsel
    simp [prePosition, hpos, hsel, hdoc]
  · intro ed tp hdoc hpos hsel
    simp [prePosition, hpos, hsel, hdoc]

/-- Witness for `clampPosition_spec`: position (1000, 7) against the
one-line document `["hello"]` clamps to line 0 and character 5. -/
theorem clampPosition_spec_witness :
    ((⟨["hello"]⟩ : Document).lineCount ≤ 1000 →
      (clampPosition ⟨["hello"]⟩ ⟨1000, 7⟩).line = (⟨["hello"]⟩ : Document).lineCount - 1) ∧
    (clampPosition ⟨["hello"]⟩ ⟨1000, 7⟩).line < (⟨["hello"]⟩ : Document).lineCount :=
  (fun h => ⟨h.1, h.2.1⟩)
    (clampPosition_spec ⟨["hello"]⟩ ⟨1000, 7⟩ (by decide))

/-- C8: with authentication enabled and a non-empty secret configured,
`verifyClient` accepts a connection iff the URL `token` parameter or the
Bearer-stripped `authorization` header equals the secret exactly, and
every non-accepted attempt is rejected 401 with the invalid-token
status. -/
theorem verifyClient_spec (tok : String) (info : ConnInfo) (htok : tok ≠ "") :
    (verifyClient (some tok) info = .accept ↔
      info.urlToken = some tok ∨ info.authHeader.map stripBearer = some tok) ∧
    (verifyClient (some tok) info = .accept ∨
      verifyClient (some tok) info = .reject 401 "Invalid authentication token") := by
  obtain ⟨u, a⟩ := info
  have h0 : stripBearer "" = "" := rfl
  have h0t : ¬stripBearer "" = tok := fun hcon => htok ((h0.symm.trans hcon).symm)
  constructor
  · cases u with
    | none =>
      cases a with
      | none => simp [verifyClient, strTruthy]
      | some h =>
        by_cases hh : h = ""
        · subst hh
          simp [verifyClient, strTruthy, htok, h0t]
        · by_cases hb : stripBearer h = tok
          · simp [verifyClient, strTruthy, hh, hb, htok]
          · simp [verifyClient, strTruthy, hh, hb, htok]
    | some s =>
      by_cases hs : s = tok
      · subst hs
        simp [verifyClient, strTruthy, htok]
      · cases a with
        | none => simp [verifyClient, strTruthy, hs]
        | some h =>
          by_cases hh : h = ""
          · subst hh
            simp [verifyClient, strTruthy, hs, htok, h0t]
          · by_cases hb : stripBearer h = tok
            · simp [verifyClient, strTruthy, hs, hh, hb, htok]
            · simp [verifyClient, strTruthy, hs, hh, hb, htok]
  · simp only [verifyClient]
    split
    · exact Or.inl rfl
    · exact Or.inr rfl

/-- Witness for `verifyClient_spec`: the secret `s3cret` presented via
the URL token parameter is accepted. -/
theorem verifyClient_spec_witness :
    verifyClient (some "s3cret") ⟨some "s3cret", none⟩ = .accept :=
  ((verifyClient_spec "s3cret" ⟨some "s3cret", none⟩ (by decide)).1).mpr (Or.inl rfl)

/-- Helper: with no injected failure the animated loop inserts every
character in order (a left fold of `typeChar`), commits them all and
reports no failure. -/
theorem typeLoop_none_parts (speed variation : ℚ) (failMsg : String) (cs : List Char) :
    ∀ (rands : List ℚ) (ed : Editor),
    (typeLoop speed variation failMsg none rands ed cs).failure = none ∧
    (typeLoop speed variation failMsg none rands ed cs).editor = cs.foldl typeChar ed ∧
    (typeLoop speed variation failMsg none rands ed cs).committed = cs.length := by
  induction cs with
  | nil => intro rands ed; exact ⟨rfl, rfl, rfl⟩
  | cons c cs ih =>
    intro rands ed
    obtain ⟨h1, h2, h3⟩ := ih rands.tail (typeChar ed c)
    simp [typeLoop, h1, h2, h3]

/-- Helper: with no injected failure and one random draw per character,
the animated loop's waits are exactly the draws mapped through
`charDelay`. -/
theorem typeLoop_delays_map (speed variation : ℚ) (failMsg : String) (cs : List Char) :
    ∀ (rands : List ℚ) (ed : Editor), rands.length = cs.length →
    (typeLoop speed variation failMsg none rands ed cs).delays =
      rands.map (charDelay speed variation) := by
  induction cs with
  | nil =>
    intro rands ed h
    rw [List.eq_nil_of_length_eq_zero h]
    rfl
  | cons c cs ih =>
    intro rands ed h
    cases rands with
    | nil => simp at h
    | cons r rs =>
      have hr : rs.length = cs.length := by simpa using h
      simp [typeLoop, ih rs (typeChar ed c) hr]

/-- Helper: when the insertion of the k-th remaining character throws,
the loop stops with the failure message, exactly the k characters before
it committed (and still in the document — no rollback), and k+1 waits
performed (the wait before the failing character had already elapsed). -/
theorem typeLoop_fail_parts (speed variation : ℚ) (failMsg : String) :
    ∀ (k : Nat) (cs : List Char) (rands : List ℚ) (ed : Editor), k < cs.length →
    (typeLoop speed variation failMsg (some k) rands ed cs).failure = some failMsg ∧
    (typeLoop speed variation failMsg (some k) rands ed cs).committed = k ∧
    (typeLoop speed variation failMsg (some k) rands ed cs).editor =
      (cs.take k).foldl typeChar ed ∧
    (typeLoop speed variation failMsg (some k) rands ed cs).delays.length = k + 1 := by
  intro k
  induction k with
  | zero =>
    intro cs rands ed hk
    cases cs with
    | nil => simp at hk
    | cons c cs => simp [typeLoop]
  | succ k ih =>
    intro cs rands ed hk
    cases cs with
    | nil => simp at hk
    | cons c cs =>
      have hk2 : k < cs.length := by simpa using hk
      obtain ⟨h1, h2, h3, h4⟩ := ih cs rands.tail (typeChar ed c) hk2
      simp [typeLoop, h1, h2, h3, h4]

/-- Helper: the animated path of the `type` handler (non-empty text, no
quick flag, no failure) runs the loop from the pre-positioned,
pre-cleared, append-adjusted editor, then applies the after-cursor and
answers `Typed N characters`. -/
theorem typeHandler_animated (defaultSpeed : ℚ) (p : TypeParams) (ed0 : Editor)
    (rands : List ℚ) (failMsg : String) (ht : p.text ≠ []) (hq : p.quick = false) :
    typeHandler defaultSpeed p ed0 rands none failMsg =
      ⟨setAfterCursor p.afterCursor
        (typeLoop (effectiveSpeed defaultSpeed p) p.variation failMsg none rands
          (appendReposition (replacePreClear (prePosition ed0 p) p) p) p.text).editor,
       (typeLoop (effectiveSpeed defaultSpeed p) p.variation failMsg none rands
          (appendReposition (replacePreClear (prePosition ed0 p) p) p) p.text).delays,
       (typeLoop (effectiveSpeed defaultSpeed p) p.variation failMsg none rands
          (appendReposition (replacePreClear (prePosition ed0 p) p) p) p.text).committed,
       .ok ("Typed " ++ toString p.text.length ++ " characters")⟩ := by
  have hf := (typeLoop_none_parts (effectiveSpeed defaultSpeed p) p.variation failMsg p.text
    rands (appendReposition (replacePreClear (prePosition ed0 p) p) p)).1
  simp only [typeHandler, if_neg ht, hq, Bool.false_eq_true, if_false, hf]

/-- C5: with `quick = true` (and a text that passes the missing-text
guard) the whole text is inserted in one atomic edit at the current
cursor of the pre-positioned editor, the success response reports
exactly `text.length` characters, no wait is performed, and the job ends
there: the outcome is independent of the random stream, of any injected
insertion failure, and of any `afterCursor` parameter (steps 6-7 are
skipped). -/
theorem type_quick_mode_spec (defaultSpeed : ℚ) (p : TypeParams) (ed0 : Editor)
    (rands : List ℚ) (failAt : Option Nat) (failMsg : String)
    (ht : p.text ≠ []) (hq : p.quick = true) :
    typeHandler defaultSpeed p ed0 rands failAt failMsg =
      ⟨quickInsert (appendReposition (replacePreClear (prePosition ed0 p) p) p)
          (String.mk p.text),
       [], p.text.length,
       .ok ("Inserted " ++ toString p.text.length ++ " characters (quick mode)")⟩ ∧
    (∀ (rands2 : List ℚ) (failAt2 : Option Nat) (failMsg2 : String) (a2 : Option Position),
      typeHandler defaultSpeed { p with afterCursor := a2 } ed0 rands2 failAt2 failMsg2 =
        typeHandler defaultSpeed p ed0 rands failAt failMsg) := by
  constructor
  · simp only [typeHandler, if_neg ht, hq, if_true]
  · intro rands2 failAt2 failMsg2 a2
    obtain ⟨text, pos, sel, mode, speed, variation, duration, quick, after⟩ := p
    dsimp only at ht hq ⊢
    subst hq
    simp only [typeHandler, if_neg ht]
    rfl

/-- Witness for `type_quick_mode_spec`: quick replace-typing `ab` over a
selected `xy` yields the document `["ab"]` and the quick-mode success
message (the spec's own concrete scenario). -/
theorem type_quick_mode_spec_witness :
    (typeHandler 50 ⟨"ab".toList, none, some (⟨0, 0⟩, ⟨0, 2⟩), "replace", none, 0,
        none, true, none⟩ ⟨⟨["xy"]⟩, ⟨0, 0⟩, ⟨0, 0⟩⟩ [] none "boom").response =
      .ok "Inserted 2 characters (quick mode)" ∧
    (typeHandler 50 ⟨"ab".toList, none, some (⟨0, 0⟩, ⟨0, 2⟩), "replace", none, 0,
        none, true, none⟩ ⟨⟨["xy"]⟩, ⟨0, 0⟩, ⟨0, 0⟩⟩ [] none "boom").editor.doc =
      ⟨["ab"]⟩ := by
  have h := (type_quick_mode_spec 50 ⟨"ab".toList, none, some (⟨0, 0⟩, ⟨0, 2⟩),
    "replace", none, 0, none, true, none⟩ ⟨⟨["xy"]⟩, ⟨0, 0⟩, ⟨0, 0⟩⟩ [] none "boom"
    (by decide) rfl).1
  rw [h]
  exact ⟨by decide, by decide⟩

/-- C6 counterexample: an animated job over the one-line document
`["hello"]` with after-cursor target (1000, 0) ends with the selection
set to (1000, 0) — line 1000 on a one-line document — while clamping
that target against the final document would give (0, 0): the target is
set without being clamped. -/
theorem afterCursor_unclamped_cex :
    (typeHandler 50 ⟨['a'], none, none, "insert", some 0, 0, none, false,
        some ⟨1000, 0⟩⟩ ⟨⟨["hello"]⟩, ⟨0, 0⟩, ⟨0, 0⟩⟩ [0] none "boom").editor.selActive =
      ⟨1000, 0⟩ ∧
    (typeHandler 50 ⟨['a'], none, none, "insert", some 0, 0, none, false,
        some ⟨1000, 0⟩⟩ ⟨⟨["hello"]⟩, ⟨0, 0⟩, ⟨0, 0⟩⟩ [0] none "boom").editor.doc.lineCount =
      1 ∧
    clampPosition (typeHandler 50 ⟨['a'], none, none, "insert", some 0, 0, none, false,
        some ⟨1000, 0⟩⟩ ⟨⟨["hello"]⟩, ⟨0, 0⟩, ⟨0, 0⟩⟩ [0] none "boom").editor.doc
      ⟨1000, 0⟩ = ⟨0, 0⟩ ∧
    (⟨1000, 0⟩ : Position) ≠ ⟨0, 0⟩ := by
  decide

/-- C6 amended: after an animated job finishes all its characters, a
supplied after-cursor target is set verbatim (with `|| 0` field
defaulting) as the new empty-selection cursor — the handler performs no
clamping on it. -/
theorem afterCursor_set_verbatim (defaultSpeed : ℚ) (p : TypeParams) (ed0 : Editor)
    (rands : List ℚ) (failMsg : String) (a : Position)
    (ht : p.text ≠ []) (hq : p.quick = false) (ha : p.afterCursor = some a) :
    (typeHandler defaultSpeed p ed0 rands none failMsg).editor.selAnchor = a ∧
    (typeHandler defaultSpeed p ed0 rands none failMsg).editor.selActive = a := by
  rw [typeHandler_animated defaultSpeed p ed0 rands failMsg ht hq]
  simp [setAfterCursor, ha]

/-- Witness for `afterCursor_set_verbatim` at the counterexample's
inputs. -/
theorem afterCursor_set_verbatim_witness :
    (typeHandler 50 ⟨['a'], none, none, "insert", some 0, 0, none, false,
        some ⟨1000, 0⟩⟩ ⟨⟨["hello"]⟩, ⟨0, 0⟩, ⟨0, 0⟩⟩ [0] none "boom").editor.selAnchor =
      ⟨1000, 0⟩ ∧
    (typeHandler 50 ⟨['a'], none, none, "insert", some 0, 0, none, false,
        some ⟨1000, 0⟩⟩ ⟨⟨["hello"]⟩, ⟨0, 0⟩, ⟨0, 0⟩⟩ [0] none "boom").editor.selActive =
      ⟨1000, 0⟩ :=
  afterCursor_set_verbatim 50 ⟨['a'], none, none, "insert", some 0, 0, none, false,
    some ⟨1000, 0⟩⟩ ⟨⟨["hello"]⟩, ⟨0, 0⟩, ⟨0, 0⟩⟩ [0] "boom" ⟨1000, 0⟩
    (by decide) rfl rfl

/-- C2 counterexample: two animated jobs that fail after different
numbers of committed characters (3 of `abcde` versus 1 of `ab`, same
underlying error) produce byte-identical error responses — so the error
response does not report how many characters were committed. -/
theorem typing_error_hides_count_cex :
    (typeHandler 50 ⟨"abcde".toList, none, none, "insert", some 0, 0, none, false, none⟩
        ⟨⟨[""]⟩, ⟨0, 0⟩, ⟨0, 0⟩⟩ [0, 0, 0, 0, 0] (some 3) "Doc closed").response =
      (typeHandler 50 ⟨"ab".toList, none, none, "insert", some 0, 0, none, false, none⟩
        ⟨⟨[""]⟩, ⟨0, 0⟩, ⟨0, 0⟩⟩ [0, 0] (some 1) "Doc closed").response ∧
    (typeHandler 50 ⟨"abcde".toList, none, none, "insert", some 0, 0, none, false, none⟩
        ⟨⟨[""]⟩, ⟨0, 0⟩, ⟨0, 0⟩⟩ [0, 0, 0, 0, 0] (some 3) "Doc closed").committed = 3 ∧
    (typeHandler 50 ⟨"ab".toList, none, none, "insert", some 0, 0, none, false, none⟩
        ⟨⟨[""]⟩, ⟨0, 0⟩, ⟨0, 0⟩⟩ [0, 0] (some 1) "Doc closed").committed = 1 := by
  decide

/-- C2 amended: when inserting the k-th character of an animated job
throws, the remaining characters are aborted, the k characters already
inserted stay in the document (no rollback), k+1 waits elapsed, and the
error response is `Typing failed:` followed by the underlying error
message — with no mention of the committed count. -/
theorem type_failure_partial_commit (defaultSpeed : ℚ) (p : TypeParams) (ed0 : Editor)
    (rands : List ℚ) (k : Nat) (failMsg : String)
    (ht : p.text ≠ []) (hq : p.quick = false) (hk : k < p.text.length) :
    (typeHandler defaultSpeed p ed0 rands (some k) failMsg).response =
      .err ("Typing failed: " ++ failMsg) ∧
    (typeHandler defaultSpeed p ed0 rands (some k) failMsg).committed = k ∧
    (typeHandler defaultSpeed p ed0 rands (some k) failMsg).editor =
      (p.text.take k).foldl typeChar
        (appendReposition (replacePreClear (prePosition ed0 p) p) p) ∧
    (typeHandler defaultSpeed p ed0 rands (some k) failMsg).delays.length = k + 1 := by
  obtain ⟨h1, h2, h3, h4⟩ := typeLoop_fail_parts (effectiveSpeed defaultSpeed p) p.variation
    failMsg k p.text rands (appendReposition (replacePreClear (prePosition ed0 p) p) p) hk
  simp only [typeHandler, if_neg ht, hq, Bool.false_eq_true, if_false, h1, h2, h3, h4]
  exact ⟨trivial, trivial, trivial, trivial⟩

/-- Witness for `type_failure_partial_commit`: typing `abcde` with the
third insertion failing commits exactly 3 characters. -/
theorem type_failure_partial_commit_witness :
    (typeHandler 50 ⟨"abcde".toList, none, none, "insert", some 0, 0, none, false, none⟩
        ⟨⟨[""]⟩, ⟨0, 0⟩, ⟨0, 0⟩⟩ [0, 0, 0, 0, 0] (some 3) "Doc closed").response =
      .err ("Typing failed: " ++ "Doc closed") ∧
    (typeHandler 50 ⟨"abcde".toList, none, none, "insert", some 0, 0, none, false, none⟩
        ⟨⟨[""]⟩, ⟨0, 0⟩, ⟨0, 0⟩⟩ [0, 0, 0, 0, 0] (some 3) "Doc closed").committed = 3 ∧
    (typeHandler 50 ⟨"abcde".toList, none, none, "insert", some 0, 0, none, false, none⟩
        ⟨⟨[""]⟩, ⟨0, 0⟩, ⟨0, 0⟩⟩ [0, 0, 0, 0, 0] (some 3) "Doc closed").editor =
      (("abcde".toList).take 3).foldl typeChar
        (appendReposition (replacePreClear (prePosition ⟨⟨[""]⟩, ⟨0, 0⟩, ⟨0, 0⟩⟩
          ⟨"abcde".toList, none, none, "insert", some 0, 0, none, false, none⟩)
          ⟨"abcde".toList, none, none, "insert", some 0, 0, none, false, none⟩)
          ⟨"abcde".toList, none, none, "insert", some 0, 0, none, false, none⟩) ∧
    (typeHandler 50 ⟨"abcde".toList, none, none, "insert", some 0, 0, none, false, none⟩
        ⟨⟨[""]⟩, ⟨0, 0⟩, ⟨0, 0⟩⟩ [0, 0, 0, 0, 0] (some 3) "Doc closed").delays.length = 3 + 1 :=
  type_failure_partial_commit 50 ⟨"abcde".toList, none, none, "insert", some 0, 0, none,
    false, none⟩ ⟨⟨[""]⟩, ⟨0, 0⟩, ⟨0, 0⟩⟩ [0, 0, 0, 0, 0] 3 "Doc closed"
    (by decide) rfl (by decide)

/-- C3 counterexample: with supplied variation 2 and a random draw of 0
the animated wait is -50 ms — negative — whereas the claimed formula
with the jitter fraction clamped into [0, 1] would give 0: the code does
not clamp the variation. -/
theorem animated_delay_negative_cex :
    (typeHandler 50 ⟨['a'], none, none, "insert", some 50, 2, none, false, none⟩
        ⟨⟨[""]⟩, ⟨0, 0⟩, ⟨0, 0⟩⟩ [0] none "x").delays = [(-50 : ℚ)] ∧
    ((-50 : ℚ) < 0) ∧
    specCharDelay 50 2 (0 * 2 - 1) = 0 := by
  refine ⟨?_, by norm_num, by norm_num [specCharDelay, clamp01]⟩
  rw [typeHandler_animated 50 ⟨['a'], none, none, "insert", some 50, 2, none, false, none⟩
    ⟨⟨[""]⟩, ⟨0, 0⟩, ⟨0, 0⟩⟩ [0] "x" (by decide) rfl]
  show (typeLoop (effectiveSpeed 50 ⟨['a'], none, none, "insert", some 50, 2, none, false,
    none⟩) 2 "x" none [0] _ ['a']).delays = [(-50 : ℚ)]
  rw [typeLoop_delays_map _ _ _ _ _ _ rfl]
  norm_num [charDelay, effectiveSpeed]

/-- C3 amended: each animated wait is `charDelay` of the next raw random
draw — `speed * (1 + (2r - 1) * variation)` with the request-supplied
variation used unclamped (variation 0 gives exactly the effective
speed); the wait is guaranteed nonnegative only when the supplied
variation already lies in [0, 1]. -/
theorem animated_delay_formula (defaultSpeed : ℚ) (p : TypeParams) (ed0 : Editor)
    (rands : List ℚ) (failMsg : String)
    (ht : p.text ≠ []) (hq : p.quick = false) (hl : rands.length = p.text.length) :
    (typeHandler defaultSpeed p ed0 rands none failMsg).delays =
      rands.map (charDelay (effectiveSpeed defaultSpeed p) p.variation) ∧
    (p.variation = 0 →
      (typeHandler defaultSpeed p ed0 rands none failMsg).delays =
        rands.map (fun _ => effectiveSpeed defaultSpeed p)) ∧
    (∀ s v r : ℚ, 0 ≤ s → 0 ≤ v → v ≤ 1 → 0 ≤ r → r ≤ 1 → 0 ≤ charDelay s v r) := by
  have hmain : (typeHandler defaultSpeed p ed0 rands none failMsg).delays =
      rands.map (charDelay (effectiveSpeed defaultSpeed p) p.variation) := by
    rw [typeHandler_animated defaultSpeed p ed0 rands failMsg ht hq]
    exact typeLoop_delays_map _ _ _ _ _ _ hl
  refine ⟨hmain, fun hv => ?_, fun s v r hs hv hv1 hr hr1 => ?_⟩
  · have hconst : charDelay (effectiveSpeed defaultSpeed p) 0 =
        fun _ => effectiveSpeed defaultSpeed p := by
      funext r
      simp [charDelay]
    rw [hmain, hv, hconst]
  · by_cases hveq : v = 0
    · simpa [charDelay, hveq] using hs
    · have h2 : -v ≤ (r * 2 - 1) * v := by nlinarith
      have h3 : (0 : ℚ) ≤ 1 + (r * 2 - 1) * v := by linarith
      simp only [charDelay, if_neg hveq]
      exact mul_nonneg hs h3

/-- Witness for `animated_delay_formula`: one character, one draw. -/
theorem animated_delay_formula_witness :
    (typeHandler 50 ⟨['a'], none, none, "insert", some 50, 2, none, false, none⟩
        ⟨⟨[""]⟩, ⟨0, 0⟩, ⟨0, 0⟩⟩ [0] none "x").delays =
      [(0 : ℚ)].map (charDelay (effectiveSpeed 50 ⟨['a'], none, none, "insert", some 50, 2,
        none, false, none⟩) 2) :=
  (animated_delay_formula 50 ⟨['a'], none, none, "insert", some 50, 2, none, false, none⟩
    ⟨⟨[""]⟩, ⟨0, 0⟩, ⟨0, 0⟩⟩ [0] "x" (by decide) rfl rfl).1

/-- C10: the `getFileContent` handler's path branch decodes the file's
bytes from the filesystem as UTF-8 and changes nothing: the whole server
state — in particular the active editor, its document and its selection
— is the same after the call as before it. -/
theorem getFileContent_path_reads_fs (st : ServerState) (path : String) :
    (getFileContentPath st path).2 = st ∧
    (getFileContentPath st path).2.editor = st.editor ∧
    (∀ bytes, st.fs path = some bytes →
      (getFileContentPath st path).1 = .ok path (String.mk (utf8Decode bytes))) := by
  refine ⟨?_, ?_, fun bytes hb => ?_⟩
  · cases h : st.fs path <;> simp [getFileContentPath, h]
  · cases h : st.fs path <;> simp [getFileContentPath, h]
  · simp [getFileContentPath, hb]

/-- Witness for `getFileContent_path_reads_fs`: reading the two bytes
`hi` leaves the state alone and answers the decoded text. -/
theorem getFileContent_path_reads_fs_witness :
    (getFileContentPath ⟨fun _ => some [104, 105], none⟩ "/tmp/a.txt").2.editor =
      (⟨fun _ => some [104, 105], none⟩ : ServerState).editor ∧
    (getFileContentPath ⟨fun _ => some [104, 105], none⟩ "/tmp/a.txt").1 =
      .ok "/tmp/a.txt" (String.mk (utf8Decode [104, 105])) :=
  ⟨(getFileContent_path_reads_fs ⟨fun _ => some [104, 105], none⟩ "/tmp/a.txt").2.1,
   (getFileContent_path_reads_fs ⟨fun _ => some [104, 105], none⟩ "/tmp/a.txt").2.2
     [104, 105] rfl⟩

end VsMcp
